import Mathlib

/-!
Verification of the Kale outbound-email service core.

The definitions below are shallow embeddings of the Python sources:
  * `app/services/limitter.py`  (rate limiting / quota admission)
  * `app/services/email.py`     (SMTP connection pool, transport selection,
                                 template variable substitution, password storage)
  * `app/routes/email.py`       (per-recipient send loop of `send_emails_api`)

Machine integers are modelled as `Nat`/`Int`; `datetime` values are records of
their observed calendar fields; the Redis counter store is modelled by an
explicit counter value together with a reachability flag (`storeUp`), since
the code swallows every store exception inside `_get_current_count` (returns 0)
and `_increment_counter` (no-op).
-/

namespace Kale

/-! ### Rate limiter (`app/services/limitter.py`) -/

/-- The `RateLimitWindow` enum from `limitter.py`. -/
inductive RateLimitWindow where
  | minute
  | hour
  | day
  | week
  | month
deriving DecidableEq

/-- Embeds `RateLimitService._get_window_seconds`: window duration in seconds. -/
def getWindowSeconds : RateLimitWindow → Nat
  | .minute => 60
  | .hour => 3600
  | .day => 86400
  | .week => 604800
  | .month => 2592000

/-- The fields of `RateLimitResult` that the quota claims mention.
`reset_time` is carried by the caller as `resetTime : Int` (epoch seconds). -/
structure RateLimitResult where
  allowed : Bool
  limit : Nat
  remaining : Nat
  retryAfter : Option Int
deriving DecidableEq

/-- Embeds `RateLimitService._get_current_count`: a Redis GET whose exceptions are
swallowed and turned into 0.  `storeUp = false` models an unreachable store. -/
def getCurrentCount (storeUp : Bool) (stored : Nat) : Nat :=
  if storeUp then stored else 0

/-- Embeds `RateLimitService._increment_counter`: INCRBY + EXPIRE in a pipeline whose
exceptions are swallowed, so an unreachable store leaves the counter as is. -/
def incrementCounter (storeUp : Bool) (stored k : Nat) : Nat :=
  if storeUp then stored + k else stored

/-- Result of one `check_rate_limit` call: the returned `RateLimitResult`,
the Redis counter afterwards, and the TTL attached by `_increment_counter`
(`none` when no increment reached the store). -/
structure CheckOutcome where
  result : RateLimitResult
  newCount : Nat
  ttlUsed : Option Nat
deriving DecidableEq

/-- Embeds `RateLimitService.check_rate_limit` (limitter.py lines 150-213) for a
resolved `limit`: read the current count, deny without incrementing when
`current_count + increment > limit` (returning `remaining = 0` and
`retry_after = reset_time - now`), otherwise increment with the window TTL and
return `remaining = max 0 (limit - (current_count + increment))` (the `max 0`
is `Nat` truncated subtraction here). -/
def checkRateLimit (w : RateLimitWindow) (storeUp : Bool) (limit increment stored : Nat)
    (now resetTime : Int) : CheckOutcome :=
  let currentCount := getCurrentCount storeUp stored
  if limit < currentCount + increment then
    { result := { allowed := false, limit := limit, remaining := 0,
                  retryAfter := some (resetTime - now) },
      newCount := stored,
      ttlUsed := none }
  else
    { result := { allowed := true, limit := limit,
                  remaining := limit - (currentCount + increment),
                  retryAfter := none },
      newCount := incrementCounter storeUp stored increment,
      ttlUsed := if storeUp then some (getWindowSeconds w) else none }

/-- Serialized execution of `n` admission checks (each reserving 1) against one
window with a reachable store, threading the stored counter through; returns
(number admitted, final counter). -/
def runChecks (limit : Nat) : Nat → Nat → Nat × Nat
  | 0, stored => (0, stored)
  | n + 1, stored =>
    let o := checkRateLimit .minute true limit 1 stored 0 60
    let rest := runChecks limit n o.newCount
    ((if o.result.allowed then 1 else 0) + rest.1, rest.2)

/-- Local view of one in-flight `check_rate_limit` call in the interleaved
model: `observed` is the count read by the Redis GET, `decided` the admission
decision once taken. -/
structure ReqState where
  observed : Option Nat
  decided : Option Bool
deriving DecidableEq

/-- One atomic store interaction of request `i` under the
GET-then-compare-then-INCRBY structure of the code: the first step performs the GET, the
second compares the observed count against the limit and, if under it, applies
the INCRBY to the shared counter. -/
def racyStep (limit : Nat) (s : Nat × List ReqState) (i : Nat) : Nat × List ReqState :=
  match s.2[i]? with
  | none => s
  | some r =>
    match r.observed, r.decided with
    | none, _ => (s.1, s.2.set i { observed := some s.1, decided := none })
    | some c, none =>
      if limit < c + 1 then (s.1, s.2.set i { observed := some c, decided := some false })
      else (s.1 + 1, s.2.set i { observed := some c, decided := some true })
    | some _, some _ => s

/-- Run a schedule (list of request indices) over the interleaved model. -/
def racyRun (limit : Nat) (sched : List Nat) (init : Nat × List ReqState) :
    Nat × List ReqState :=
  sched.foldl (racyStep limit) init

/-- Number of requests whose admission decision was `allowed`. -/
def admittedCount (reqs : List ReqState) : Nat :=
  reqs.countP (fun r => r.decided == some true)

theorem runChecks_saturated (limit n c : Nat) (h : limit ≤ c) :
    (runChecks limit n c).1 = 0 ∧ (runChecks limit n c).2 = c := by
  induction n with
  | zero => simp [runChecks]
  | succ n ih =>
    have hd : limit < c + 1 := Nat.lt_succ_of_le h
    simp only [runChecks, checkRateLimit, getCurrentCount, incrementCounter]
    simp only [if_pos hd, if_true]
    simpa using ih

theorem runChecks_admitted (limit : Nat) :
    ∀ n c, c ≤ limit → (runChecks limit n c).1 = min n (limit - c) := by
  intro n
  induction n with
  | zero => intro c _; simp [runChecks]
  | succ n ih =>
    intro c hc
    by_cases hfull : limit ≤ c
    · have hceq : c = limit := Nat.le_antisymm hc hfull
      have hsat := runChecks_saturated limit (n + 1) c hfull
      rw [hsat.1, hceq]
      simp
    · have hlt : c < limit := Nat.lt_of_not_le hfull
      have hd : ¬ limit < c + 1 := by omega
      simp only [runChecks, checkRateLimit, getCurrentCount, incrementCounter]
      simp only [if_neg hd, if_true]
      have := ih (c + 1) (by omega)
      simp only [if_pos rfl] at *
      simp only [this]
      omega

/-- C1 counterexample: the claim says among N concurrent admission checks
against a window with limit L and no prior usage exactly min(N, L) are
admitted, never more.  Under the GET-then-compare-then-INCRBY
structure, the interleaving GET₀, GET₁, INCR₀, INCR₁ of two checks with
limit 1 admits BOTH (admitted = 2 ≠ min 2 1 = 1) and drives the stored
counter to 2, past the limit. -/
theorem c1_counterexample :
    admittedCount (racyRun 1 [0, 1, 0, 1] (0, [⟨none, none⟩, ⟨none, none⟩])).2 = 2 ∧
    (racyRun 1 [0, 1, 0, 1] (0, [⟨none, none⟩, ⟨none, none⟩])).1 = 2 ∧
    min 2 1 = 1 := by decide

/-- C1 (amended): `check_rate_limit` is GET-then-compare-then-INCRBY against
the counter store, not a single atomic increment-and-check.  Serialized, N
admission checks (each reserving 1) against a window with limit L and no prior
usage admit exactly min(N, L); but concurrent checks may interleave so that
two of them both observe the old count and both are admitted past the limit
(limit 1, schedule GET₀, GET₁, INCR₀, INCR₁: both admitted, counter 2). -/
theorem c1_amended :
    (∀ limit n, (runChecks limit n 0).1 = min n limit) ∧
    (admittedCount (racyRun 1 [0, 1, 0, 1] (0, [⟨none, none⟩, ⟨none, none⟩])).2 = 2 ∧
      (racyRun 1 [0, 1, 0, 1] (0, [⟨none, none⟩, ⟨none, none⟩])).1 = 2) := by
  refine ⟨fun limit n => ?_, by decide, by decide⟩
  have h := runChecks_admitted limit n 0 (Nat.zero_le _)
  simpa using h

/-- C5: a denied admission check leaves the stored counter unchanged (no
increment reaches the store), and the denied result carries remaining = 0
together with retryAfter = resetTime - now, the seconds until the reset
time of the window. -/
theorem c5_denied_no_increment (w : RateLimitWindow) (limit k stored : Nat)
    (now resetTime : Int) (hDenied : limit < stored + k) :
    (checkRateLimit w true limit k stored now resetTime).result.allowed = false ∧
    (checkRateLimit w true limit k stored now resetTime).newCount = stored ∧
    (checkRateLimit w true limit k stored now resetTime).result.remaining = 0 ∧
    (checkRateLimit w true limit k stored now resetTime).result.retryAfter =
      some (resetTime - now) := by
  simp [checkRateLimit, getCurrentCount, hDenied]

/-- C5 witness: concrete denied check (limit 10, increment 3, count 8,
now 100, reset 250). -/
theorem c5_witness :
    (10 : Nat) < 8 + 3 ∧
    (checkRateLimit .day true 10 3 8 100 250).result.allowed = false ∧
    (checkRateLimit .day true 10 3 8 100 250).newCount = 8 ∧
    (checkRateLimit .day true 10 3 8 100 250).result.remaining = 0 ∧
    (checkRateLimit .day true 10 3 8 100 250).result.retryAfter = some (250 - 100) :=
  ⟨by decide, c5_denied_no_increment .day 10 3 8 100 250 (by decide)⟩

/-- C6 counterexample: the claim says that with the counter store unreachable
EVERY admission check returns allowed.  But `_get_current_count` swallows the
store error and reports 0, so a check whose increment alone exceeds the limit
(limit 10, increment 11, e.g. an 11-recipient batch against burst limit 10) is
still denied even though the store is down. -/
theorem c6_counterexample :
    (checkRateLimit .minute false 10 11 3 0 60).result.allowed = false := by decide

/-- C6 (amended): when the counter store is unreachable, `_get_current_count`
reports 0 and the increment is silently skipped, so every admission check
whose increment is at most the limit returns allowed (fail-open) and the
stored counter and TTL are untouched; a check whose increment alone exceeds
the limit is still denied. -/
theorem c6_amended (w : RateLimitWindow) (limit k stored : Nat) (now resetTime : Int)
    (hk : k ≤ limit) :
    (checkRateLimit w false limit k stored now resetTime).result.allowed = true ∧
    (checkRateLimit w false limit k stored now resetTime).newCount = stored ∧
    (checkRateLimit w false limit k stored now resetTime).ttlUsed = none := by
  have h : ¬ limit < k := by omega
  simp [checkRateLimit, getCurrentCount, incrementCounter, h]

/-- C6 witness: concrete fail-open check (store down, limit 10, increment 1). -/
theorem c6_witness :
    (1 : Nat) ≤ 10 ∧
    (checkRateLimit .minute false 10 1 3 0 60).result.allowed = true ∧
    (checkRateLimit .minute false 10 1 3 0 60).newCount = 3 ∧
    (checkRateLimit .minute false 10 1 3 0 60).ttlUsed = none :=
  ⟨by decide, c6_amended .minute 10 1 3 0 60 (by decide)⟩

/-! ### Redis key derivation (`RateLimitService._get_redis_key`) -/

/-- The calendar fields of `datetime.utcnow()` that `_get_redis_key` reads.
`isoWeek` is the observed `now.isocalendar()[1]`. -/
structure UtcNow where
  year : Nat
  month : Nat
  day : Nat
  hour : Nat
  minute : Nat
  isoWeek : Nat
deriving DecidableEq

/-- Decimal digit character, as Python renders one digit of an integer. -/
def digitChar (d : Nat) : Char :=
  match d with
  | 0 => '0'
  | 1 => '1'
  | 2 => '2'
  | 3 => '3'
  | 4 => '4'
  | 5 => '5'
  | 6 => '6'
  | 7 => '7'
  | 8 => '8'
  | _ => '9'

/-- Decimal rendering of a natural number, as Python `str` and f-strings do. -/
def natDigits (n : Nat) : List Char :=
  if _h : n < 10 then [digitChar n]
  else natDigits (n / 10) ++ [digitChar (n % 10)]
termination_by n
decreasing_by exact Nat.div_lt_self (by omega) (by omega)

/-- The Python format code `02d`: left-pad the decimal rendering to width 2. -/
def pad2 (n : Nat) : List Char :=
  if n < 10 then '0' :: natDigits n else natDigits n

/-- Left inverse used to prove the digit renderings injective. -/
def decodeDigits (l : List Char) : Nat :=
  l.foldl (fun a c => a * 10 + (c.toNat - 48)) 0

theorem digitChar_toNat (d : Nat) (h : d < 10) : (digitChar d).toNat = 48 + d := by
  interval_cases d <;> rfl

theorem natDigits_small (n : Nat) (h : n < 10) : natDigits n = [digitChar n] := by
  rw [natDigits, dif_pos h]

theorem decodeDigits_natDigits (n : Nat) : decodeDigits (natDigits n) = n := by
  induction n using Nat.strong_induction_on with
  | _ n ih =>
    by_cases h : n < 10
    · rw [natDigits_small n h]
      simp [decodeDigits, digitChar_toNat n h]
    · rw [natDigits, dif_neg h]
      have ihq := ih (n / 10) (Nat.div_lt_self (by omega) (by omega))
      simp only [decodeDigits, List.foldl_append] at ihq ⊢
      rw [ihq]
      simp [digitChar_toNat (n % 10) (Nat.mod_lt _ (by omega))]
      omega

theorem decodeDigits_pad2 (n : Nat) : decodeDigits (pad2 n) = n := by
  by_cases h : n < 10
  · rw [pad2, if_pos h]
    have : decodeDigits ('0' :: natDigits n) = decodeDigits (natDigits n) := by
      simp [decodeDigits]
    rw [this, decodeDigits_natDigits]
  · rw [pad2, if_neg h, decodeDigits_natDigits]

theorem natDigits_inj {a b : Nat} (h : natDigits a = natDigits b) : a = b := by
  have := congrArg decodeDigits h
  rwa [decodeDigits_natDigits, decodeDigits_natDigits] at this

theorem pad2_inj {a b : Nat} (h : pad2 a = pad2 b) : a = b := by
  have := congrArg decodeDigits h
  rwa [decodeDigits_pad2, decodeDigits_pad2] at this

theorem pad2_length (n : Nat) (h : n < 100) : (pad2 n).length = 2 := by
  by_cases h1 : n < 10
  · rw [pad2, if_pos h1, natDigits_small n h1]
    rfl
  · rw [pad2, if_neg h1, natDigits, dif_neg h1,
      natDigits_small (n / 10) (by omega)]
    rfl

/-- The `window.value` strings from the `RateLimitWindow` enum. -/
def windowValue : RateLimitWindow → List Char
  | .minute => "minute".toList
  | .hour => "hour".toList
  | .day => "day".toList
  | .week => "week".toList
  | .month => "month".toList

/-- The calendar-aligned `time_bucket` label computed inside `_get_redis_key`
(limitter.py lines 115-127): minute buckets by year-month-day-hour-minute,
hour by year-month-day-hour, day by year-month-day, week by year and ISO week
number (prefixed `W`), month by year-month; all but the year zero-padded to
width 2. -/
def timeBucket : RateLimitWindow → UtcNow → List Char
  | .minute, t =>
    natDigits t.year ++ '-' ::
      (pad2 t.month ++ '-' :: (pad2 t.day ++ '-' :: (pad2 t.hour ++ '-' :: pad2 t.minute)))
  | .hour, t =>
    natDigits t.year ++ '-' :: (pad2 t.month ++ '-' :: (pad2 t.day ++ '-' :: pad2 t.hour))
  | .day, t => natDigits t.year ++ '-' :: (pad2 t.month ++ '-' :: pad2 t.day)
  | .week, t => natDigits t.year ++ '-' :: 'W' :: pad2 t.isoWeek
  | .month, t => natDigits t.year ++ '-' :: pad2 t.month

/-- Embeds `RateLimitService._get_redis_key`: the key is the colon-joined
f-string of the literal `rate_limit`, the rate-type value, the identifier,
the window value and the time bucket. -/
def getRedisKey (rateType identifier : List Char) (w : RateLimitWindow) (t : UtcNow) :
    List Char :=
  "rate_limit:".toList ++
    (rateType ++ ':' :: (identifier ++ ':' :: (windowValue w ++ ':' :: timeBucket w t)))

/-- The calendar fields the bucket of each window is derived from. -/
def bucketFields : RateLimitWindow → UtcNow → List Nat
  | .minute, t => [t.year, t.month, t.day, t.hour, t.minute]
  | .hour, t => [t.year, t.month, t.day, t.hour]
  | .day, t => [t.year, t.month, t.day]
  | .week, t => [t.year, t.isoWeek]
  | .month, t => [t.year, t.month]

/-- Field bounds every real `datetime.utcnow()` observation satisfies (the
zero-padded fields are below 100, so each renders as exactly two digits). -/
def ValidTime (t : UtcNow) : Prop :=
  t.month < 100 ∧ t.day < 100 ∧ t.hour < 100 ∧ t.minute < 100 ∧ t.isoWeek < 100

theorem seg_nat {a b : Nat} {r s : List Char} (hlen : r.length = s.length)
    (h : natDigits a ++ r = natDigits b ++ s) : a = b ∧ r = s := by
  have hp := List.append_inj' h hlen
  exact ⟨natDigits_inj hp.1, hp.2⟩

theorem seg_pad2 {a b : Nat} (ha : a < 100) (hb : b < 100) {r s : List Char}
    (h : pad2 a ++ r = pad2 b ++ s) : a = b ∧ r = s := by
  have hp := List.append_inj h (by rw [pad2_length a ha, pad2_length b hb])
  exact ⟨pad2_inj hp.1, hp.2⟩

theorem timeBucket_inj (w : RateLimitWindow) (t1 t2 : UtcNow)
    (hv1 : ValidTime t1) (hv2 : ValidTime t2)
    (h : timeBucket w t1 = timeBucket w t2) : bucketFields w t1 = bucketFields w t2 := by
  obtain ⟨hm1, hd1, hh1, hmi1, hw1⟩ := hv1
  obtain ⟨hm2, hd2, hh2, hmi2, hw2⟩ := hv2
  cases w with
  | minute =>
    simp only [timeBucket] at h
    obtain ⟨hy, htail⟩ := seg_nat (by
      simp [pad2_length _ hm1, pad2_length _ hd1, pad2_length _ hh1, pad2_length _ hmi1,
        pad2_length _ hm2, pad2_length _ hd2, pad2_length _ hh2, pad2_length _ hmi2]) h
    simp only [List.cons.injEq, true_and] at htail
    obtain ⟨hmo, htail2⟩ := seg_pad2 hm1 hm2 htail
    simp only [List.cons.injEq, true_and] at htail2
    obtain ⟨hda, htail3⟩ := seg_pad2 hd1 hd2 htail2
    simp only [List.cons.injEq, true_and] at htail3
    obtain ⟨hho, htail4⟩ := seg_pad2 hh1 hh2 htail3
    simp only [List.cons.injEq, true_and] at htail4
    have hmi := pad2_inj htail4
    simp [bucketFields, hy, hmo, hda, hho, hmi]
  | hour =>
    simp only [timeBucket] at h
    obtain ⟨hy, htail⟩ := seg_nat (by
      simp [pad2_length _ hm1, pad2_length _ hd1, pad2_length _ hh1,
        pad2_length _ hm2, pad2_length _ hd2, pad2_length _ hh2]) h
    simp only [List.cons.injEq, true_and] at htail
    obtain ⟨hmo, htail2⟩ := seg_pad2 hm1 hm2 htail
    simp only [List.cons.injEq, true_and] at htail2
    obtain ⟨hda, htail3⟩ := seg_pad2 hd1 hd2 htail2
    simp only [List.cons.injEq, true_and] at htail3
    have hho := pad2_inj htail3
    simp [bucketFields, hy, hmo, hda, hho]
  | day =>
    simp only [timeBucket] at h
    obtain ⟨hy, htail⟩ := seg_nat (by
      simp [pad2_length _ hm1, pad2_length _ hd1, pad2_length _ hm2, pad2_length _ hd2]) h
    simp only [List.cons.injEq, true_and] at htail
    obtain ⟨hmo, htail2⟩ := seg_pad2 hm1 hm2 htail
    simp only [List.cons.injEq, true_and] at htail2
    have hda := pad2_inj htail2
    simp [bucketFields, hy, hmo, hda]
  | week =>
    simp only [timeBucket] at h
    obtain ⟨hy, htail⟩ := seg_nat (by
      simp [pad2_length _ hw1, pad2_length _ hw2]) h
    simp only [List.cons.injEq, true_and] at htail
    have hwk := pad2_inj htail
    simp [bucketFields, hy, hwk]
  | month =>
    simp only [timeBucket] at h
    obtain ⟨hy, htail⟩ := seg_nat (by
      simp [pad2_length _ hm1, pad2_length _ hm2]) h
    simp only [List.cons.injEq, true_and] at htail
    have hmo := pad2_inj htail
    simp [bucketFields, hy, hmo]

theorem timeBucket_of_fields (w : RateLimitWindow) (t1 t2 : UtcNow)
    (h : bucketFields w t1 = bucketFields w t2) : timeBucket w t1 = timeBucket w t2 := by
  cases w <;> simp only [bucketFields, List.cons.injEq, and_true] at h <;>
    simp [timeBucket, h.1, h.2]

/-- C7: for a fixed rate-limit type, identifier and window, two checks produce
the same Redis counter key exactly when they fall in the same calendar-aligned
bucket (minute: year-month-day-hour-minute; hour: year-month-day-hour; day:
year-month-day; week: year-ISO week; month: year-month); and the window
durations are 60/3600/86400/604800/2592000 seconds, the TTL attached to every
counter increment that reaches the store. -/
theorem c7_key_bucket_and_ttl :
    (∀ (rateType identifier : List Char) (w : RateLimitWindow) (t1 t2 : UtcNow),
      ValidTime t1 → ValidTime t2 →
      (getRedisKey rateType identifier w t1 = getRedisKey rateType identifier w t2 ↔
        bucketFields w t1 = bucketFields w t2)) ∧
    getWindowSeconds .minute = 60 ∧ getWindowSeconds .hour = 3600 ∧
    getWindowSeconds .day = 86400 ∧ getWindowSeconds .week = 604800 ∧
    getWindowSeconds .month = 2592000 ∧
    (∀ (w : RateLimitWindow) (limit k stored : Nat) (now resetTime : Int),
      (checkRateLimit w true limit k stored now resetTime).result.allowed = true →
      (checkRateLimit w true limit k stored now resetTime).ttlUsed =
        some (getWindowSeconds w)) := by
  refine ⟨?_, rfl, rfl, rfl, rfl, rfl, ?_⟩
  · intro rateType identifier w t1 t2 hv1 hv2
    constructor
    · intro h
      simp only [getRedisKey, List.append_right_inj, List.cons.injEq, true_and] at h
      exact timeBucket_inj w t1 t2 hv1 hv2 h
    · intro h
      simp only [getRedisKey, List.append_right_inj, List.cons.injEq, true_and]
      exact timeBucket_of_fields w t1 t2 h
  · intro w limit k stored now resetTime hAllowed
    by_cases hd : limit < stored + k
    · simp [checkRateLimit, getCurrentCount, hd] at hAllowed
    · simp [checkRateLimit, getCurrentCount, hd]

/-- C7 witness: two checks in the same minute bucket (records differing only
in the irrelevant ISO-week field) share the key, and a concrete allowed check
attaches the 3600-second TTL of the hour window. -/
theorem c7_witness :
    getRedisKey "api_calls".toList "42".toList .minute ⟨2026, 10, 12, 8, 30, 41⟩ =
      getRedisKey "api_calls".toList "42".toList .minute ⟨2026, 10, 12, 8, 30, 7⟩ ∧
    (checkRateLimit .hour true 10 1 0 0 3600).ttlUsed = some (getWindowSeconds .hour) := by
  constructor
  · exact (c7_key_bucket_and_ttl.1 "api_calls".toList "42".toList .minute
      ⟨2026, 10, 12, 8, 30, 41⟩ ⟨2026, 10, 12, 8, 30, 7⟩
      ⟨by decide, by decide, by decide, by decide, by decide⟩
      ⟨by decide, by decide, by decide, by decide, by decide⟩).mpr (by decide)
  · exact c7_key_bucket_and_ttl.2.2.2.2.2.2 .hour 10 1 0 0 3600 (by decide)

/-! ### SMTP connection pool (`EmailService.get_smtp_connection`, email.py 54-94) -/

/-- The `SMTPConfig` fields the pool and transport logic read. -/
structure SMTPConfigM where
  smtp_host : String
  smtp_port : Nat
  smtp_username : String
  smtp_password : String
  use_tls : Bool
deriving DecidableEq

/-- The pool key computed at email.py line 57: the colon-joined f-string of
`config.smtp_host`, `config.smtp_port` and `config.smtp_username`. -/
def connectionKey (config : SMTPConfigM) : String :=
  config.smtp_host ++ ":" ++ toString config.smtp_port ++ ":" ++ config.smtp_username

/-- Outcome of `get_smtp_connection`: a pooled handle was reused, or a new
connection (identified by a fresh handle) was established and pooled. -/
inductive AcquireResult where
  | reused (handle : Nat)
  | fresh (handle : Nat)
deriving DecidableEq

/-- Embeds `EmailService.get_smtp_connection`: if the key is pooled and the `noop`
health probe succeeds, yield the pooled connection; if the probe fails, drop
the entry and establish a new connection; otherwise establish and pool a new
connection.  `noopOk` models the probe outcome, `newHandle` the identity of a
newly established connection. -/
def getSmtpConnection (pool : List (String × Nat)) (config : SMTPConfigM)
    (noopOk : Bool) (newHandle : Nat) : AcquireResult × List (String × Nat) :=
  match pool.lookup (connectionKey config) with
  | some conn =>
    if noopOk then (.reused conn, pool)
    else
      (.fresh newHandle,
        (connectionKey config, newHandle) ::
          pool.eraseP (fun e => e.1 == connectionKey config))
  | none => (.fresh newHandle, (connectionKey config, newHandle) :: pool)

/-- A relay configuration and a copy of it with a rotated auth secret. -/
def poolDemoConfig1 : SMTPConfigM :=
  { smtp_host := "smtp.example.com", smtp_port := 587, smtp_username := "alice",
    smtp_password := "old-secret", use_tls := true }

/-- See `poolDemoConfig1`: same relay, different auth secret. -/
def poolDemoConfig2 : SMTPConfigM :=
  { smtp_host := "smtp.example.com", smtp_port := 587, smtp_username := "alice",
    smtp_password := "new-secret", use_tls := true }

/-- C2 counterexample: the pool key ignores the auth secret (and the transport
mode), so two relay configs differing only in the secret share the key, and
acquiring for the second config reuses the pooled (healthy) entry created for
the first — the claim that they never share a pooled connection is false. -/
theorem c2_counterexample :
    poolDemoConfig1.smtp_password ≠ poolDemoConfig2.smtp_password ∧
    connectionKey poolDemoConfig1 = connectionKey poolDemoConfig2 ∧
    (getSmtpConnection [(connectionKey poolDemoConfig1, 1)] poolDemoConfig2 true 2).1 =
      .reused 1 :=
  ⟨by decide, rfl, rfl⟩

/-- C2 (amended): the pool key is `host:port:username` only — it contains
neither the transport mode nor any digest of the auth secret — so any two
relay configs agreeing on host, port and username (in particular, differing
only in the auth secret) share the pool key, and acquiring a connection for
the second config reuses the pooled entry of the first whenever its health
probe succeeds. -/
theorem c2_amended (c1 c2 : SMTPConfigM) (hHost : c1.smtp_host = c2.smtp_host)
    (hPort : c1.smtp_port = c2.smtp_port) (hUser : c1.smtp_username = c2.smtp_username) :
    connectionKey c1 = connectionKey c2 ∧
    ∀ (pool : List (String × Nat)) (handle newHandle : Nat),
      (getSmtpConnection ((connectionKey c1, handle) :: pool) c2 true newHandle).1 =
        .reused handle := by
  have hKey : connectionKey c1 = connectionKey c2 := by
    rw [connectionKey, connectionKey, hHost, hPort, hUser]
  refine ⟨hKey, fun pool handle newHandle => ?_⟩
  rw [getSmtpConnection, hKey]
  simp [List.lookup]

/-- C2 witness: the two demo configs agree on host, port and username, and the
second acquisition reuses handle 1 from a singleton pool. -/
theorem c2_witness :
    connectionKey poolDemoConfig1 = connectionKey poolDemoConfig2 ∧
    (getSmtpConnection [(connectionKey poolDemoConfig1, 1)] poolDemoConfig2 true 2).1 =
      .reused 1 := by
  have h := c2_amended poolDemoConfig1 poolDemoConfig2 rfl rfl rfl
  exact ⟨h.1, h.2 [] 1 2⟩

/-! ### Transport-mode selection (email.py 450-466 and 307-326) -/

/-- How the connection is negotiated: TLS from the first byte (`SMTP_SSL` /
`use_tls=True`), a STARTTLS upgrade, or a plain connection attempt with an
SSL fallback if the plain connect raises. -/
inductive TransportChoice where
  | implicitTls
  | startTls
  | plainThenSsl
deriving DecidableEq

/-- Transport selection in `EmailService.send_email` (email.py 450-466):
port 465 selects implicit TLS; else `use_tls` with port 587/25 selects
STARTTLS; else `use_tls` selects STARTTLS; else the code re-tests port 465
(dead branch) and otherwise still selects STARTTLS. -/
def sendEmailTransport (smtp_port : Nat) (use_tls : Bool) : TransportChoice :=
  if smtp_port = 465 then .implicitTls
  else if use_tls ∧ (smtp_port = 587 ∨ smtp_port = 25) then .startTls
  else if use_tls then .startTls
  else if smtp_port = 465 then .implicitTls
  else .startTls

/-- Transport selection in `EmailService.test_smtp_connection`
(email.py 307-326): port 465 selects implicit TLS; else `use_tls` selects
STARTTLS; otherwise a plain connection is attempted with SSL fallback. -/
def testSmtpTransport (smtp_port : Nat) (use_tls : Bool) : TransportChoice :=
  if smtp_port = 465 then .implicitTls
  else if use_tls ∧ (smtp_port = 587 ∨ smtp_port = 25) then .startTls
  else if use_tls then .startTls
  else .plainThenSsl

/-- C8 counterexample: the claim says that for a non-conventional port the
connection honors the explicit TLS flag, so a config with the flag off is
connected without TLS negotiation, and that explicit configuration always
wins.  But `send_email` on port 2525 with `use_tls = False` still negotiates
STARTTLS, and port 465 with the flag off still uses implicit TLS. -/
theorem c8_counterexample :
    sendEmailTransport 2525 false = .startTls ∧
    sendEmailTransport 465 false = .implicitTls := by
  exact ⟨rfl, rfl⟩

/-- C8 (amended): port 465 always selects implicit TLS regardless of the
flag.  In `send_email` every other port selects STARTTLS whether or not the
TLS flag is set — the explicit flag is ignored.  Only `test_smtp_connection`
honors the flag on non-465 ports: flag on selects STARTTLS, flag off attempts
a plain connection (with SSL fallback). -/
theorem c8_amended :
    (∀ p u, sendEmailTransport p u = if p = 465 then .implicitTls else .startTls) ∧
    (∀ u, testSmtpTransport 465 u = .implicitTls) ∧
    (∀ p, p ≠ 465 → testSmtpTransport p true = .startTls) ∧
    (∀ p, p ≠ 465 → testSmtpTransport p false = .plainThenSsl) := by
  refine ⟨fun p u => ?_, fun u => rfl, fun p hp => ?_, fun p hp => ?_⟩
  · by_cases hp : p = 465
    · simp [sendEmailTransport, hp]
    · by_cases hsub : p = 587 ∨ p = 25
      · cases u <;> simp [sendEmailTransport, hp, hsub]
      · cases u <;> simp [sendEmailTransport, hp, hsub]
  · by_cases hsub : p = 587 ∨ p = 25
    · simp [testSmtpTransport, hp, hsub]
    · simp [testSmtpTransport, hp, hsub]
  · simp [testSmtpTransport, hp]

/-- C8 witness: concrete ports exercising each amended case. -/
theorem c8_witness :
    sendEmailTransport 2525 true = .startTls ∧
    testSmtpTransport 465 false = .implicitTls ∧
    testSmtpTransport 587 true = .startTls ∧
    testSmtpTransport 2525 false = .plainThenSsl := by
  refine ⟨?_, c8_amended.2.1 false, c8_amended.2.2.1 587 (by decide),
    c8_amended.2.2.2 2525 (by decide)⟩
  have h := c8_amended.1 2525 true
  simpa using h

/-! ### Template variable substitution (`EmailService.replace_variables`,
email.py 368-378) -/

/-- The `\x7b` character; template tokens are delimited by two of these. -/
def openBrace : Char := Char.ofNat 123

/-- The `\x7d` character closing a template token. -/
def closeBrace : Char := Char.ofNat 125

/-- The placeholder built for each bound variable: two opening braces, the
key, two closing braces. -/
def placeholder (key : List Char) : List Char :=
  openBrace :: openBrace :: key ++ [closeBrace, closeBrace]

/-- The Python `str.replace`: replace every non-overlapping occurrence of `pat`,
scanning left to right.  (In `replace_variables` the pattern is always a
placeholder, hence nonempty; the guard keeps the recursion total.) -/
def replaceAll (pat repl : List Char) : List Char → List Char
  | [] => []
  | c :: cs =>
    if pat ≠ [] ∧ pat.isPrefixOf (c :: cs) then
      repl ++ replaceAll pat repl (cs.drop (pat.length - 1))
    else c :: replaceAll pat repl cs
termination_by l => l.length
decreasing_by
  all_goals simp only [List.length_drop, List.length_cons]
  all_goals omega

/-- Embeds `EmailService.replace_variables`: fold `str.replace` over the bound
variables (dict iteration order). -/
def replaceVariables (content : List Char) (vars : List (List Char × List Char)) :
    List Char :=
  vars.foldl (fun acc kv => replaceAll (placeholder kv.1) kv.2 acc) content

theorem isPrefixOf_iff_pre {l1 l2 : List Char} : l1.isPrefixOf l2 ↔ l1 <+: l2 := by
  exact List.isPrefixOf_iff_prefix

theorem replaceAll_of_not_infix (pat repl : List Char) :
    ∀ l, ¬ pat <:+: l → replaceAll pat repl l = l := by
  intro l
  induction l with
  | nil =>
    intro _
    rw [replaceAll]
  | cons c cs ih =>
    intro hni
    have hguard : ¬ (pat ≠ [] ∧ pat.isPrefixOf (c :: cs)) := by
      rintro ⟨_, hp⟩
      have hpre : pat <+: c :: cs := isPrefixOf_iff_pre.mp hp
      exact hni ( List.IsPrefix.isInfix hpre )
    rw [replaceAll, if_neg hguard]
    have htail : ¬ pat <:+: cs := fun hx => hni (List.infix_cons hx)
    rw [ih htail]

theorem replaceAll_head_match (pat repl rest : List Char) (hne : pat ≠ []) :
    replaceAll pat repl (pat ++ rest) = repl ++ replaceAll pat repl rest := by
  cases pat with
  | nil => exact absurd rfl hne
  | cons p ps =>
    have hpre : (p :: ps).isPrefixOf (p :: ps ++ rest) :=
      isPrefixOf_iff_pre.mpr (List.prefix_append _ _)
    rw [List.cons_append, replaceAll, if_pos ⟨hne, by rw [← List.cons_append]; exact hpre⟩]
    have hdrop : (ps ++ rest).drop ((p :: ps).length - 1) = rest := by
      simp only [List.length_cons, Nat.add_sub_cancel]
      exact List.drop_left ps rest
    rw [hdrop]

theorem replaceAll_placeholder_append (key repl : List Char) :
    ∀ pre post, openBrace ∉ pre →
      replaceAll (placeholder key) repl (pre ++ (placeholder key ++ post)) =
        pre ++ (repl ++ replaceAll (placeholder key) repl post) := by
  intro pre
  induction pre with
  | nil =>
    intro post _
    rw [List.nil_append, List.nil_append,
      replaceAll_head_match _ _ _ (by simp [placeholder])]
  | cons c pre' ih =>
    intro post hnb
    have hcne : openBrace ≠ c := by
      intro h
      exact hnb (h ▸ List.mem_cons_self c pre')
    have hguard : ¬ (placeholder key ≠ [] ∧
        (placeholder key).isPrefixOf (c :: (pre' ++ (placeholder key ++ post)))) := by
      rintro ⟨_, hp⟩
      have hpre := isPrefixOf_iff_pre.mp hp
      obtain ⟨t, ht⟩ := hpre
      rw [placeholder, List.cons_append] at ht
      injection ht with h1 _
      exact hcne h1
    rw [List.cons_append, replaceAll, if_neg hguard,
      ih post (fun hx => hnb (List.mem_cons_of_mem c hx)), List.cons_append]

/-- C9: rendering substitutes bound placeholder tokens with their values and
leaves content without any bound placeholder untouched — in particular a body
whose only token has no matching binding renders unchanged, the token kept
verbatim. -/
theorem c9_passthrough_and_substitution :
    (∀ (content : List Char) (vars : List (List Char × List Char)),
      (∀ kv ∈ vars, ¬ placeholder kv.1 <:+: content) →
      replaceVariables content vars = content) ∧
    (∀ (key value pre post : List Char), openBrace ∉ pre →
      replaceVariables (pre ++ (placeholder key ++ post)) [(key, value)] =
        pre ++ (value ++ replaceAll (placeholder key) value post)) := by
  constructor
  · intro content vars
    induction vars with
    | nil => intro _; rfl
    | cons kv rest ih =>
      intro h
      show List.foldl _ _ _ = _
      rw [List.foldl_cons,
        replaceAll_of_not_infix (placeholder kv.1) kv.2 content (h kv (by simp))]
      exact ih fun kv2 hm => h kv2 (by simp [hm])
  · intro key value pre post hnb
    show List.foldl _ _ _ = _
    rw [List.foldl_cons, List.foldl_nil]
    exact replaceAll_placeholder_append key value pre post hnb

/-- C9 witness: a body referencing only the unbound `missing` token renders
unchanged under the binding of `name`, and a body with the bound `name` token
has it substituted in place. -/
theorem c9_witness :
    replaceVariables ([' '] ++ placeholder ['m', 'i', 's', 's', 'i', 'n', 'g'])
        [(['n', 'a', 'm', 'e'], ['B', 'o', 'b'])] =
      [' '] ++ placeholder ['m', 'i', 's', 's', 'i', 'n', 'g'] ∧
    replaceVariables ([' '] ++ (placeholder ['n', 'a', 'm', 'e'] ++ []))
        [(['n', 'a', 'm', 'e'], ['B', 'o', 'b'])] =
      [' '] ++ (['B', 'o', 'b'] ++
        replaceAll (placeholder ['n', 'a', 'm', 'e']) ['B', 'o', 'b'] []) := by
  constructor
  · exact c9_passthrough_and_substitution.1 _ _ (by decide)
  · exact c9_passthrough_and_substitution.2 ['n', 'a', 'm', 'e'] ['B', 'o', 'b']
      [' '] [] (by decide)

/-! ### Per-recipient send loop (`send_emails_api`, routes/email.py 302-363) -/

/-- Outcome of the `email.send_email_enhanced` call for one recipient: it
returned `(True, _, message_id)`, returned `(False, error, "")`, or raised. -/
inductive SendOutcome where
  | ok (messageId : String)
  | fail (error : String)
  | raised (error : String)
deriving DecidableEq

/-- One entry of the `results` list built by the loop. -/
structure ResultEntry where
  recipient : String
  status : String
  messageId : Option String
  error : Option String
deriving DecidableEq

/-- The loop accumulator: `results` and `successful_sends`. -/
structure SendLoopState where
  results : List ResultEntry
  successfulSends : Nat
deriving DecidableEq

/-- The exception raised at routes/email.py line 323: `rate_limit` is the
`RateLimitService` instance from `app/services/limitter.py`, which defines no
`increment_email_count` method, so the attribute access raises. -/
def incrementEmailCountError : String :=
  "AttributeError: RateLimitService has no attribute increment_email_count"

/-- Body of the `for recipient in email_data.recipients` loop (routes/email.py
311-343) for one recipient, given the `send_email_enhanced` outcome.  On
success, `successful_sends += 1` executes and then the nonexistent
`rate_limit.increment_email_count` raises `AttributeError` before
`status_msg = "sent"` is reached, so the per-recipient `except` handler
appends the recipient as failed; a returned failure or a raised exception is
appended as failed with its error. -/
def processRecipient (st : SendLoopState) (recipient : String) (outcome : SendOutcome) :
    SendLoopState :=
  match outcome with
  | .ok _ =>
    { results := st.results ++
        [{ recipient := recipient, status := "failed", messageId := none,
           error := some incrementEmailCountError }],
      successfulSends := st.successfulSends + 1 }
  | .fail e =>
    { results := st.results ++
        [{ recipient := recipient, status := "failed", messageId := none,
           error := some e }],
      successfulSends := st.successfulSends }
  | .raised e =>
    { results := st.results ++
        [{ recipient := recipient, status := "failed", messageId := none,
           error := some e }],
      successfulSends := st.successfulSends }

/-- The send loop with its quota cutoff (routes/email.py 306-343): before each
recipient, `if successful_sends >= remaining and remaining != -1: break`;
`remaining = -1` is the unlimited sentinel. -/
def sendEmailsLoop (remaining : Int) :
    List (String × SendOutcome) → SendLoopState → SendLoopState
  | [], st => st
  | (r, oc) :: rest, st =>
    if (st.successfulSends : Int) ≥ remaining ∧ remaining ≠ -1 then st
    else sendEmailsLoop remaining rest (processRecipient st r oc)

/-- True when `send_email_enhanced` reported success for the recipient. -/
def SendOutcome.isOk : SendOutcome → Bool
  | .ok _ => true
  | .fail _ => false
  | .raised _ => false

/-- A 5-recipient batch whose every delivery attempt succeeds. -/
def fiveOkRecipients : List (String × SendOutcome) :=
  [("r1@example.com", .ok "m1"), ("r2@example.com", .ok "m2"),
   ("r3@example.com", .ok "m3"), ("r4@example.com", .ok "m4"),
   ("r5@example.com", .ok "m5")]

/-- C3 counterexample: with a remaining daily quota of 2 and a 5-recipient
batch, the loop attempts 2 recipients, then breaks; the result list has 2
entries and NO entry with status `skipped` — the 3 unattempted recipients are
omitted entirely, refuting the claim that they appear as `skipped`. -/
theorem c3_counterexample :
    (sendEmailsLoop 2 fiveOkRecipients ⟨[], 0⟩).results.length = 2 ∧
    (sendEmailsLoop 2 fiveOkRecipients ⟨[], 0⟩).results.countP
      (fun e => e.status == "skipped") = 0 ∧
    (sendEmailsLoop 2 fiveOkRecipients ⟨[], 0⟩).successfulSends = 2 := by decide

theorem sendEmailsLoop_allOk (r : Nat) :
    ∀ (recips : List (String × SendOutcome)) (st : SendLoopState),
      (∀ x ∈ recips, x.2.isOk = true) →
      st.successfulSends ≤ r → r - st.successfulSends ≤ recips.length →
      (sendEmailsLoop (r : Int) recips st).results.length
          = st.results.length + (r - st.successfulSends) ∧
      (sendEmailsLoop (r : Int) recips st).successfulSends = r := by
  intro recips
  induction recips with
  | nil =>
    intro st _ hle hlen
    simp only [List.length_nil, Nat.le_zero] at hlen
    rw [sendEmailsLoop]
    constructor <;> omega
  | cons p rest ih =>
    rcases p with ⟨pr, poc⟩
    intro st hok hle hlen
    have hm := hok (pr, poc) (by simp)
    cases poc with
    | fail e => simp [SendOutcome.isOk] at hm
    | raised e => simp [SendOutcome.isOk] at hm
    | ok m =>
      by_cases hstop : ((st.successfulSends : Int) ≥ (r : Int) ∧ (r : Int) ≠ -1)
      · have hseq : st.successfulSends = r := by
          have h1 := hstop.1
          omega
        rw [sendEmailsLoop, if_pos hstop]
        constructor <;> omega
      · have hslt : st.successfulSends < r := by
          have hne : (r : Int) ≠ -1 := by omega
          rcases Decidable.not_and_iff_or_not.mp hstop with h | h
          · omega
          · exact absurd hne h
        rw [sendEmailsLoop, if_neg hstop]
        simp only [processRecipient]
        have hrec := ih
          { results := st.results ++
              [{ recipient := pr, status := "failed", messageId := none,
                 error := some incrementEmailCountError }],
            successfulSends := st.successfulSends + 1 }
          (fun x hx => hok x (List.mem_cons_of_mem _ hx))
          (by simp; omega)
          (by simp; simp only [List.length_cons] at hlen; omega)
        simp only [List.length_append, List.length_cons, List.length_nil] at hrec
        constructor
        · rw [hrec.1]
          omega
        · exact hrec.2

theorem sendEmailsLoop_status (remaining : Int) :
    ∀ (recips : List (String × SendOutcome)) (st : SendLoopState),
      (∀ e ∈ st.results, e.status = "failed") →
      ∀ e ∈ (sendEmailsLoop remaining recips st).results, e.status = "failed" := by
  intro recips
  induction recips with
  | nil =>
    intro st h
    rw [sendEmailsLoop]
    exact h
  | cons p rest ih =>
    rcases p with ⟨pr, poc⟩
    intro st h
    rw [sendEmailsLoop]
    by_cases hstop : ((st.successfulSends : Int) ≥ remaining ∧ remaining ≠ -1)
    · rw [if_pos hstop]
      exact h
    · rw [if_neg hstop]
      apply ih
      intro e he
      cases poc <;> simp only [processRecipient, List.mem_append,
        List.mem_singleton] at he <;> rcases he with he | he <;>
        first
          | exact h e he
          | (subst he; rfl)

/-- C3 (amended): when the batch is larger than the finite remaining daily
quota r and every attempt succeeds, the loop stops as soon as r sends have
succeeded: exactly r recipients are attempted and appear in the result list,
the recipients beyond the cutoff are not attempted and are OMITTED from the
result list (there is no `skipped` status), and no entry carries a `skipped`
status (each attempted entry is in fact recorded `failed`, since the
post-success `rate_limit.increment_email_count` call raises). -/
theorem c3_amended (recips : List (String × SendOutcome)) (r : Nat)
    (hok : ∀ x ∈ recips, x.2.isOk = true) (hlt : r < recips.length) :
    (sendEmailsLoop (r : Int) recips ⟨[], 0⟩).results.length = r ∧
    (sendEmailsLoop (r : Int) recips ⟨[], 0⟩).successfulSends = r ∧
    ∀ e ∈ (sendEmailsLoop (r : Int) recips ⟨[], 0⟩).results, e.status ≠ "skipped" := by
  have hmain := sendEmailsLoop_allOk r recips ⟨[], 0⟩ hok (Nat.zero_le _) (by simp; omega)
  refine ⟨by simpa using hmain.1, hmain.2, fun e he => ?_⟩
  have hst := sendEmailsLoop_status (r : Int) recips ⟨[], 0⟩ (by intro e h; cases h) e he
  rw [hst]
  decide

/-- C3 witness: the counterexample batch instantiates the amended claim
(quota 2, five all-successful recipients). -/
theorem c3_witness :
    (sendEmailsLoop ((2 : Nat) : Int) fiveOkRecipients ⟨[], 0⟩).results.length = 2 ∧
    (sendEmailsLoop ((2 : Nat) : Int) fiveOkRecipients ⟨[], 0⟩).successfulSends = 2 ∧
    ∀ e ∈ (sendEmailsLoop ((2 : Nat) : Int) fiveOkRecipients ⟨[], 0⟩).results,
      e.status ≠ "skipped" :=
  c3_amended fiveOkRecipients 2 (by decide) (by decide)

/-- A 3-recipient batch whose second delivery attempt fails at the relay. -/
def threeRecipientsDemo : List (String × SendOutcome) :=
  [("a@example.com", .ok "m1"), ("b@example.com", .fail "relay fault"),
   ("c@example.com", .ok "m3")]

/-- C4: with 3 recipients where the 2nd fails, the loop does not abort and the
result list preserves the order supplied by the caller — but ALL three are reported
`failed`, including the two whose delivery succeeded (the loop counted 2
successful sends), because line 323 calls `rate_limit.increment_email_count`,
which does not exist on `RateLimitService`, and the resulting
`AttributeError` is caught by the per-recipient handler before
`status_msg = "sent"` is assigned.  The claimed sent/failed/sent report is
never produced. -/
theorem c4_all_reported_failed :
    (sendEmailsLoop (-1) threeRecipientsDemo ⟨[], 0⟩).results.map
        (fun e => e.recipient) = ["a@example.com", "b@example.com", "c@example.com"] ∧
    (sendEmailsLoop (-1) threeRecipientsDemo ⟨[], 0⟩).results.map
        (fun e => e.status) = ["failed", "failed", "failed"] ∧
    (sendEmailsLoop (-1) threeRecipientsDemo ⟨[], 0⟩).successfulSends = 2 := by
  decide

/-! ### Password storage (`EmailService._encrypt_password` and
`EmailService._decrypt_password`, email.py 229-240) -/

/-- Python `str`/`bytes` values as lists of byte values. -/
abbrev ByteStr := List Nat

/-- Byte value of the standard base64 alphabet character for sextet `n`. -/
def b64Char (n : Nat) : Nat :=
  if n < 26 then 65 + n
  else if n < 52 then 97 + (n - 26)
  else if n < 62 then 48 + (n - 52)
  else if n = 62 then 43
  else 47

/-- Embeds `base64.b64encode`: standard base64, three bytes to four alphabet bytes,
with `=` (byte 61) padding for a 1- or 2-byte final group. -/
def b64Encode : ByteStr → ByteStr
  | [] => []
  | [a] => [b64Char (a / 4), b64Char (a % 4 * 16), 61, 61]
  | [a, b] => [b64Char (a / 4), b64Char (a % 4 * 16 + b / 16), b64Char (b % 16 * 4), 61]
  | a :: b :: c :: rest =>
    b64Char (a / 4) :: b64Char (a % 4 * 16 + b / 16) ::
      b64Char (b % 16 * 4 + c / 64) :: b64Char (c % 64) :: b64Encode rest

/-- Inverse alphabet: the sextet for an alphabet byte, `none` otherwise. -/
def b64DecodeChar (c : Nat) : Option Nat :=
  if 65 ≤ c ∧ c ≤ 90 then some (c - 65)
  else if 97 ≤ c ∧ c ≤ 122 then some (26 + (c - 97))
  else if 48 ≤ c ∧ c ≤ 57 then some (52 + (c - 48))
  else if c = 43 then some 62
  else if c = 47 then some 63
  else none

/-- The character loop of `binascii.a2b_base64` in its default non-strict
mode (what `base64.b64decode` calls): bytes outside the alphabet are
DISCARDED, not rejected; `=` only counts as padding once at least two data
characters of the current quad have been seen, and as soon as padding
completes a quad the decoder returns, ignoring the rest of the input;
reaching the end of input mid-quad (one, two or three leftover data
characters) raises `binascii.Error`, modelled as `none`.  State: `quadPos` is
the position within the current 4-character quad, `leftchar` the pending
bits, `pads` the padding characters seen for this quad.  (Checked against
CPython 3.11 `b64decode` on exhaustive short inputs and random fuzz.) -/
def b64DecodeLoop : Nat → Nat → Nat → ByteStr → Option ByteStr
  | quadPos, _, _, [] => if quadPos = 0 then some [] else none
  | quadPos, leftchar, pads, ch :: rest =>
    if ch = 61 then
      if 2 ≤ quadPos then
        if 4 ≤ quadPos + (pads + 1) then some []
        else b64DecodeLoop quadPos leftchar (pads + 1) rest
      else b64DecodeLoop quadPos leftchar pads rest
    else
      match b64DecodeChar ch with
      | none => b64DecodeLoop quadPos leftchar pads rest
      | some v =>
        match quadPos with
        | 0 => b64DecodeLoop 1 v 0 rest
        | 1 => Option.map (fun out => (leftchar * 4 + v / 16) :: out)
            (b64DecodeLoop 2 (v % 16) 0 rest)
        | 2 => Option.map (fun out => (leftchar * 16 + v / 4) :: out)
            (b64DecodeLoop 3 (v % 4) 0 rest)
        | _ => Option.map (fun out => (leftchar * 64 + v) :: out)
            (b64DecodeLoop 0 0 0 rest)

/-- Embeds `base64.b64decode` (default, non-validating). -/
def b64Decode (s : ByteStr) : Option ByteStr := b64DecodeLoop 0 0 0 s

/-- Validity of a byte sequence as UTF-8, as Python `bytes.decode()` checks it
(RFC 3629 table: no overlong forms, no surrogates, no code points beyond
U+10FFFF).  `none` branches model the `UnicodeDecodeError` raise. -/
def utf8Valid : ByteStr → Bool
  | [] => true
  | b :: rest =>
    if b < 128 then utf8Valid rest
    else if 194 ≤ b ∧ b ≤ 223 then
      match rest with
      | c1 :: rest1 => if 128 ≤ c1 ∧ c1 ≤ 191 then utf8Valid rest1 else false
      | [] => false
    else if b = 224 then
      match rest with
      | c1 :: c2 :: rest2 =>
        if (160 ≤ c1 ∧ c1 ≤ 191) ∧ (128 ≤ c2 ∧ c2 ≤ 191) then utf8Valid rest2
        else false
      | _ => false
    else if (225 ≤ b ∧ b ≤ 236) ∨ (238 ≤ b ∧ b ≤ 239) then
      match rest with
      | c1 :: c2 :: rest2 =>
        if (128 ≤ c1 ∧ c1 ≤ 191) ∧ (128 ≤ c2 ∧ c2 ≤ 191) then utf8Valid rest2
        else false
      | _ => false
    else if b = 237 then
      match rest with
      | c1 :: c2 :: rest2 =>
        if (128 ≤ c1 ∧ c1 ≤ 159) ∧ (128 ≤ c2 ∧ c2 ≤ 191) then utf8Valid rest2
        else false
      | _ => false
    else if b = 240 then
      match rest with
      | c1 :: c2 :: c3 :: rest3 =>
        if (144 ≤ c1 ∧ c1 ≤ 191) ∧ (128 ≤ c2 ∧ c2 ≤ 191) ∧ (128 ≤ c3 ∧ c3 ≤ 191) then
          utf8Valid rest3
        else false
      | _ => false
    else if 241 ≤ b ∧ b ≤ 243 then
      match rest with
      | c1 :: c2 :: c3 :: rest3 =>
        if (128 ≤ c1 ∧ c1 ≤ 191) ∧ (128 ≤ c2 ∧ c2 ≤ 191) ∧ (128 ≤ c3 ∧ c3 ≤ 191) then
          utf8Valid rest3
        else false
      | _ => false
    else if b = 244 then
      match rest with
      | c1 :: c2 :: c3 :: rest3 =>
        if (128 ≤ c1 ∧ c1 ≤ 143) ∧ (128 ≤ c2 ∧ c2 ≤ 191) ∧ (128 ≤ c3 ∧ c3 ≤ 191) then
          utf8Valid rest3
        else false
      | _ => false
    else false

/-- Embeds `EmailService._encrypt_password`: base64-encode the password bytes. -/
def encrypt_password (p : ByteStr) : ByteStr := b64Encode p

/-- Embeds `EmailService._decrypt_password`:
`base64.b64decode(encrypted_password.encode()).decode()` inside a
`try/except` returning the input unchanged — so the fallback fires when
EITHER the base64 decode raises OR the decoded bytes are not valid UTF-8
(the final `.decode()` raises); when both succeed, the decoded value is
returned even if it differs from the input. -/
def decrypt_password (s : ByteStr) : ByteStr :=
  match b64Decode s with
  | some bytes => if utf8Valid bytes then bytes else s
  | none => s

theorem b64DecodeChar_b64Char : ∀ n < 64, b64DecodeChar (b64Char n) = some n := by
  decide

theorem b64Char_ne_pad : ∀ n < 64, b64Char n ≠ 61 := by
  decide

theorem b64Decode_b64Encode : ∀ p : ByteStr, (∀ b ∈ p, b < 256) →
    b64Decode (b64Encode p) = some p := by
  intro p
  induction p using b64Encode.induct with
  | case1 =>
    intro _
    simp [b64Encode, b64Decode, b64DecodeLoop]
  | case2 a =>
    intro hb
    have ha : a < 256 := hb a (by simp)
    have h1 := b64DecodeChar_b64Char (a / 4) (by omega)
    have h2 := b64DecodeChar_b64Char (a % 4 * 16) (by omega)
    have hn1 : ¬ b64Char (a / 4) = 61 := b64Char_ne_pad (a / 4) (by omega)
    have hn2 : ¬ b64Char (a % 4 * 16) = 61 := b64Char_ne_pad (a % 4 * 16) (by omega)
    simp [b64Encode, b64Decode, b64DecodeLoop, h1, h2, hn1, hn2]
    omega
  | case3 a b =>
    intro hb
    have ha : a < 256 := hb a (by simp)
    have hbb : b < 256 := hb b (by simp)
    have h1 := b64DecodeChar_b64Char (a / 4) (by omega)
    have h2 := b64DecodeChar_b64Char (a % 4 * 16 + b / 16) (by omega)
    have h3 := b64DecodeChar_b64Char (b % 16 * 4) (by omega)
    have hn1 : ¬ b64Char (a / 4) = 61 := b64Char_ne_pad (a / 4) (by omega)
    have hn2 : ¬ b64Char (a % 4 * 16 + b / 16) = 61 :=
      b64Char_ne_pad (a % 4 * 16 + b / 16) (by omega)
    have hn3 : ¬ b64Char (b % 16 * 4) = 61 := b64Char_ne_pad (b % 16 * 4) (by omega)
    simp [b64Encode, b64Decode, b64DecodeLoop, h1, h2, h3, hn1, hn2, hn3]
    omega
  | case4 a b c rest ih =>
    intro hb
    have ha : a < 256 := hb a (by simp)
    have hbb : b < 256 := hb b (by simp)
    have hc : c < 256 := hb c (by simp)
    have hrest : ∀ x ∈ rest, x < 256 := fun x hx => hb x (by simp [hx])
    have h1 := b64DecodeChar_b64Char (a / 4) (by omega)
    have h2 := b64DecodeChar_b64Char (a % 4 * 16 + b / 16) (by omega)
    have h3 := b64DecodeChar_b64Char (b % 16 * 4 + c / 64) (by omega)
    have h4 := b64DecodeChar_b64Char (c % 64) (by omega)
    have hn1 : ¬ b64Char (a / 4) = 61 := b64Char_ne_pad (a / 4) (by omega)
    have hn2 : ¬ b64Char (a % 4 * 16 + b / 16) = 61 :=
      b64Char_ne_pad (a % 4 * 16 + b / 16) (by omega)
    have hn3 : ¬ b64Char (b % 16 * 4 + c / 64) = 61 :=
      b64Char_ne_pad (b % 16 * 4 + c / 64) (by omega)
    have hn4 : ¬ b64Char (c % 64) = 61 := b64Char_ne_pad (c % 64) (by omega)
    have ihe : b64DecodeLoop 0 0 0 (b64Encode rest) = some rest := ih hrest
    simp [b64Encode, b64Decode, b64DecodeLoop, h1, h2, h3, h4, hn1, hn2, hn3, hn4, ihe]
    omega

/-- C10 counterexample: the claim says decryption of a value that is not
valid base64 returns the value unchanged.  But `base64.b64decode` discards
bytes outside the alphabet, so the single byte 33 (`!`, not an alphabet
byte, hence not valid base64) decodes successfully to the EMPTY byte string
and `_decrypt_password` returns the empty string, not the input. -/
theorem c10_counterexample :
    b64DecodeChar 33 = none ∧
    b64Decode [33] = some [] ∧
    decrypt_password [33] = [] ∧
    decrypt_password [33] ≠ [33] := by
  refine ⟨rfl, rfl, rfl, by decide⟩

/-- C10 (amended): password storage round-trips — for every password byte
string (valid UTF-8, as every Python `str` encodes to), decrypting the
encrypted value yields the original, and the encryption is plain base64.
The unencrypted-password fallback is narrower than claimed: the stored value
is returned unchanged exactly when decoding raises, i.e. when the base64
decoder (which discards non-alphabet bytes and raises only on a bad count of
remaining data characters) errors out, or when the decoded bytes are not
valid UTF-8; a value made only of non-alphabet bytes, such as `!`, decodes
to the empty string and is NOT returned unchanged. -/
theorem c10_amended :
    (∀ p : ByteStr, (∀ b ∈ p, b < 256) → utf8Valid p = true →
      decrypt_password (encrypt_password p) = p) ∧
    (∀ s : ByteStr, b64Decode s = none → decrypt_password s = s) ∧
    (∀ (s bytes : ByteStr), b64Decode s = some bytes → utf8Valid bytes = false →
      decrypt_password s = s) := by
  refine ⟨?_, ?_, ?_⟩
  · intro p hb hv
    simp only [decrypt_password, encrypt_password, b64Decode_b64Encode p hb, hv, if_true]
  · intro s hs
    simp only [decrypt_password, hs]
  · intro s bytes hs hv
    simp only [decrypt_password, hs, hv]
    simp

/-- C10 witness: the 7-byte ASCII password `hunter2` round-trips; the bytes
of `hello` (five data characters, an invalid count) make the base64 decoder
raise, so the value is returned unchanged; and the bytes of `pass` decode to
the non-UTF-8 bytes 165,171,44, so the final UTF-8 decode raises and the
value is returned unchanged. -/
theorem c10_witness :
    decrypt_password (encrypt_password [104, 117, 110, 116, 101, 114, 50]) =
      [104, 117, 110, 116, 101, 114, 50] ∧
    b64Decode [104, 101, 108, 108, 111] = none ∧
    decrypt_password [104, 101, 108, 108, 111] = [104, 101, 108, 108, 111] ∧
    b64Decode [112, 97, 115, 115] = some [165, 171, 44] ∧
    utf8Valid [165, 171, 44] = false ∧
    decrypt_password [112, 97, 115, 115] = [112, 97, 115, 115] := by
  refine ⟨c10_amended.1 _ (by decide) (by decide), by decide,
    c10_amended.2.1 _ (by decide), by decide, by decide,
    c10_amended.2.2 [112, 97, 115, 115] [165, 171, 44] (by decide) (by decide)⟩

end Kale
